import Mathlib

/-!
Verification development for the mdfr MDF 3.x / 4.x measurement-file reader.

The Rust source is shallowly embedded: byte buffers are `List Nat` (each
entry a byte value), machine integers are `Nat`/`Int` with explicit
`% 2 ^ w` where wrap-around matters, and fallible code (Rust `panic!`,
`expect`, `todo!`, out-of-bounds indexing) returns `Option`, with `none`
standing for an aborted computation.  IEEE-754 doubles appear in two
roles and are modelled accordingly:

* in the byte-decoding engine (`mdfreader4.rs`) float arrays are only
  ever filled from raw bytes and compared for equality, so float values
  are represented by their bit patterns (a `Nat`);
* in the physical-conversion engine the claims are about which
  arithmetic expression is applied, so `f64` values are modelled as
  exact rationals (`ℚ`); all concrete inputs used in theorems keep the
  arithmetic exact, for which the rational model coincides with `f64`.
-/

/-- Little-endian reassembly of a byte list into a natural number,
mirroring Rust's `from_le_bytes` / `byteorder::ReadBytesExt` LE reads. -/
def leNat (bs : List Nat) : Nat :=
  bs.foldr (fun b acc => b + 256 * acc) 0

/-- Big-endian reassembly of a byte list, mirroring `from_be_bytes`. -/
def beNat (bs : List Nat) : Nat :=
  leNat bs.reverse

/-- Two's-complement reinterpretation of an unsigned `nbits`-wide value,
mirroring Rust's signed integer decoding (`i16::from_le_bytes`,
`read_i24`, `read_i48`, ...). -/
def toSigned (nbits : Nat) (v : Nat) : Int :=
  if v < 2 ^ (nbits - 1) then (v : Int) else (v : Int) - 2 ^ nbits

/-- Little-endian byte encoding of a value on `s` bytes (used to build
well-formed record streams in theorem statements). -/
def leBytes : Nat → Nat → List Nat
  | 0, _ => []
  | s + 1, v => v % 256 :: leBytes s (v / 256)

/-- Rust slice indexing `&l[pos..pos+len]`: `none` models the
out-of-bounds panic. -/
def sliceB (l : List Nat) (pos len : Nat) : Option (List Nat) :=
  if pos + len ≤ l.length then some ((l.drop pos).take len) else none

/-- Rust indexed assignment `data[i] = v`: `none` models the
out-of-bounds panic. -/
def setAtB (l : List α) (i : Nat) (v : α) : Option (List α) :=
  if i < l.length then some (l.set i v) else none

/-- Rust `data[idx..idx+v.len()].copy_from_slice(v)` into a flat byte
buffer: `none` models the out-of-bounds panic. -/
def copyAtB (l : List Nat) (idx : Nat) (v : List Nat) : Option (List Nat) :=
  if idx + v.length ≤ l.length then
    some (l.take idx ++ v ++ l.drop (idx + v.length))
  else none

/-- Append `v` to the entry at index `i` (models `Decoder::decode_to_string`
appending into `data[i]`); `none` models the out-of-bounds panic. -/
def appendAtB (l : List (List Nat)) (i : Nat) (v : List Nat) :
    Option (List (List Nat)) :=
  if h : i < l.length then some (l.set i (l.get ⟨i, h⟩ ++ v)) else none

/-- Structural worker for `chunksList`: the first argument bounds the
number of chunks (any bound at least the list length works), keeping
the recursion structural so that evaluation unfolds in the kernel. -/
def chunksListGo : Nat → List Nat → Nat → List (List Nat)
  | 0, _, _ => []
  | n + 1, l, k =>
    if l = [] ∨ k = 0 then []
    else l.take k :: chunksListGo n (l.drop k) k

/-- Rust's `slice::chunks(k)` (`k > 0`): splits a list into consecutive
chunks of size `k`, the last one possibly shorter. -/
def chunksList (l : List Nat) (k : Nat) : List (List Nat) :=
  chunksListGo l.length l k

/-- Validity of a byte sequence as UTF-8, mirroring Rust's
`str::from_utf8` acceptance (continuation ranges, overlong and
surrogate rejection, max `U+10FFFF`). -/
def utf8Cont (b : Nat) : Bool :=
  decide (0x80 ≤ b) && decide (b ≤ 0xBF)

/-- UTF-8 validation of a whole byte list, as performed by
`str::from_utf8`. -/
def utf8Valid : List Nat → Bool
  | [] => true
  | b :: rest =>
    if b ≤ 0x7F then utf8Valid rest
    else if b < 0xC2 then false
    else if b ≤ 0xDF then
      match rest with
      | c1 :: r => utf8Cont c1 && utf8Valid r
      | [] => false
    else if b ≤ 0xEF then
      match rest with
      | c1 :: c2 :: r =>
        (if b = 0xE0 then decide (0xA0 ≤ c1) && decide (c1 ≤ 0xBF)
         else if b = 0xED then decide (0x80 ≤ c1) && decide (c1 ≤ 0x9F)
         else utf8Cont c1) && utf8Cont c2 && utf8Valid r
      | _ => false
    else if b ≤ 0xF4 then
      match rest with
      | c1 :: c2 :: c3 :: r =>
        (if b = 0xF0 then decide (0x90 ≤ c1) && decide (c1 ≤ 0xBF)
         else if b = 0xF4 then decide (0x80 ≤ c1) && decide (c1 ≤ 0x8F)
         else utf8Cont c1) && utf8Cont c2 && utf8Cont c3 && utf8Valid r
      | _ => false
    else false

/-- ISO-8859-1 decoding followed by `trim_end_matches('\0')`: since
Latin-1 maps each byte to the code point of the same value, the decoded
string is represented by its byte list with trailing NUL bytes removed. -/
def latin1TrimZeros (bs : List Nat) : List Nat :=
  (bs.reverse.dropWhile (· = 0)).reverse

/-- Latin-1 byte list rendered as a Lean string (byte value = code
point), used for channel names. -/
def latin1String (bs : List Nat) : String :=
  String.mk (bs.map Char.ofNat)

namespace Conv

/-!
Physical-conversion engine of `mdfreader4.rs` (`linear_conversion`,
`rational_conversion`).  Raw arrays hold machine numbers that the Rust
code casts to `f64` before the arithmetic; here every numeric array is
already a `List ℚ` and the `f64` arithmetic is modelled exactly on `ℚ`
(the float literal `1e-12` is modelled by the rational `1 / 10 ^ 12`).
Complex branches hit `todo!()` in the source, modelled by `none`.
-/

/-- The `ChannelData` tagged union of `mdfreader4.rs`, as seen by the
conversion engine: one variant per raw representation, numeric arrays
as exact rationals. -/
inductive ChannelData where
  | int8 (a : List ℚ)
  | uint8 (a : List ℚ)
  | int16 (a : List ℚ)
  | uint16 (a : List ℚ)
  | float16 (a : List ℚ)
  | int24 (a : List ℚ)
  | uint24 (a : List ℚ)
  | int32 (a : List ℚ)
  | uint32 (a : List ℚ)
  | float32 (a : List ℚ)
  | int48 (a : List ℚ)
  | uint48 (a : List ℚ)
  | int64 (a : List ℚ)
  | uint64 (a : List ℚ)
  | float64 (a : List ℚ)
  | complex16 (a : List (ℚ × ℚ))
  | complex32 (a : List (ℚ × ℚ))
  | complex64 (a : List (ℚ × ℚ))
  | stringSBC (a : List (List Nat))
  | stringUTF8 (a : List (List Nat))
  | stringUTF16 (a : List (List Nat))
  | byteArray (a : List Nat)
deriving DecidableEq, Repr

/-- The linear map `raw * p2 + p1` applied to one element (the body of
every numeric `Zip` closure in `linear_conversion`). -/
def linApply (p1 p2 m : ℚ) : ℚ := m * p2 + p1

/-- Element-wise linear conversion of a numeric array.  `ndarray`'s
`Zip::from(&mut new_array).and(a)` panics unless the freshly zeroed
`cycle_count`-long array and `a` agree in length, hence the guard. -/
def linMap (p1 p2 : ℚ) (cycle_count : Nat) (a : List ℚ) :
    Option (List ℚ) :=
  if a.length = cycle_count then some (a.map (linApply p1 p2)) else none

/-- Embedding of `linear_conversion` (mdfreader4.rs).  `cc_val` holds
the coefficients `[p1, p2, ...]`; indexing past its end panics
(`none`).  The skip condition is the source's
`!(p1 == 0.0 && (p2 - 1.0) < 1e-12)` — note: exact comparison on `p1`
and a one-sided, not absolute-value, comparison on `p2 - 1`. -/
def linear_conversion (data : ChannelData) (cc_val : List ℚ)
    (cycle_count : Nat) : Option ChannelData :=
  match cc_val with
  | p1 :: p2 :: _ =>
    if ¬(p1 = 0 ∧ p2 - 1 < 1 / 10 ^ 12) then
      match data with
      | .uint8 a => (linMap p1 p2 cycle_count a).map .float64
      | .int8 a => (linMap p1 p2 cycle_count a).map .float64
      | .int16 a => (linMap p1 p2 cycle_count a).map .float64
      | .uint16 a => (linMap p1 p2 cycle_count a).map .float64
      | .float16 a => (linMap p1 p2 cycle_count a).map .float64
      | .int24 a => (linMap p1 p2 cycle_count a).map .float64
      | .uint24 a => (linMap p1 p2 cycle_count a).map .float64
      | .int32 a => (linMap p1 p2 cycle_count a).map .float64
      | .uint32 a => (linMap p1 p2 cycle_count a).map .float64
      | .float32 a => (linMap p1 p2 cycle_count a).map .float64
      | .int48 a => (linMap p1 p2 cycle_count a).map .float64
      | .uint48 a => (linMap p1 p2 cycle_count a).map .float64
      | .int64 a => (linMap p1 p2 cycle_count a).map .float64
      | .uint64 a => (linMap p1 p2 cycle_count a).map .float64
      | .float64 a => (linMap p1 p2 cycle_count a).map .float64
      | .complex16 _ => none
      | .complex32 _ => none
      | .complex64 _ => none
      | .stringSBC a => some (.stringSBC a)
      | .stringUTF8 a => some (.stringUTF8 a)
      | .stringUTF16 a => some (.stringUTF16 a)
      | .byteArray a => some (.byteArray a)
    else some data
  | _ => none

/-- The rational map `(m² p1 + m p2 + p3) / (m² p4 + m p5 + p6)` applied
to one element — the body of every numeric `Zip` closure in
`rational_conversion` except the `Float64` one. -/
def ratApply (p1 p2 p3 p4 p5 p6 m : ℚ) : ℚ :=
  (m ^ 2 * p1 + m * p2 + p3) / (m ^ 2 * p4 + m * p5 + p6)

/-- The `Float64` branch of `rational_conversion` as written in the
source: its numerator constant term is `p1`, not `p3`
(`(m_2 * p1 + *a * p2 + p1) / (m_2 * p4 + *a * p5 + p6)`). -/
def ratApplyFloat64 (p1 p2 p4 p5 p6 m : ℚ) : ℚ :=
  (m ^ 2 * p1 + m * p2 + p1) / (m ^ 2 * p4 + m * p5 + p6)

/-- Element-wise application with the `Zip` length guard. -/
def ratMap (f : ℚ → ℚ) (cycle_count : Nat) (a : List ℚ) :
    Option (List ℚ) :=
  if a.length = cycle_count then some (a.map f) else none

/-- Embedding of `rational_conversion` (mdfreader4.rs).  All numeric
branches use `ratApply p1 p2 p3 p4 p5 p6` except the `Float64` branch,
which uses `ratApplyFloat64` exactly as the source does. -/
def rational_conversion (data : ChannelData) (cc_val : List ℚ)
    (cycle_count : Nat) : Option ChannelData :=
  match cc_val with
  | p1 :: p2 :: p3 :: p4 :: p5 :: p6 :: _ =>
    match data with
    | .uint8 a => (ratMap (ratApply p1 p2 p3 p4 p5 p6) cycle_count a).map .float64
    | .int8 a => (ratMap (ratApply p1 p2 p3 p4 p5 p6) cycle_count a).map .float64
    | .int16 a => (ratMap (ratApply p1 p2 p3 p4 p5 p6) cycle_count a).map .float64
    | .uint16 a => (ratMap (ratApply p1 p2 p3 p4 p5 p6) cycle_count a).map .float64
    | .float16 a => (ratMap (ratApply p1 p2 p3 p4 p5 p6) cycle_count a).map .float64
    | .int24 a => (ratMap (ratApply p1 p2 p3 p4 p5 p6) cycle_count a).map .float64
    | .uint24 a => (ratMap (ratApply p1 p2 p3 p4 p5 p6) cycle_count a).map .float64
    | .int32 a => (ratMap (ratApply p1 p2 p3 p4 p5 p6) cycle_count a).map .float64
    | .uint32 a => (ratMap (ratApply p1 p2 p3 p4 p5 p6) cycle_count a).map .float64
    | .float32 a => (ratMap (ratApply p1 p2 p3 p4 p5 p6) cycle_count a).map .float64
    | .int48 a => (ratMap (ratApply p1 p2 p3 p4 p5 p6) cycle_count a).map .float64
    | .uint48 a => (ratMap (ratApply p1 p2 p3 p4 p5 p6) cycle_count a).map .float64
    | .int64 a => (ratMap (ratApply p1 p2 p3 p4 p5 p6) cycle_count a).map .float64
    | .uint64 a => (ratMap (ratApply p1 p2 p3 p4 p5 p6) cycle_count a).map .float64
    | .float64 a => (ratMap (ratApplyFloat64 p1 p2 p4 p5 p6) cycle_count a).map .float64
    | .complex16 _ => none
    | .complex32 _ => none
    | .complex64 _ => none
    | .stringSBC a => some (.stringSBC a)
    | .stringUTF8 a => some (.stringUTF8 a)
    | .stringUTF16 a => some (.stringUTF16 a)
    | .byteArray a => some (.byteArray a)
  | _ => none

end Conv

namespace Info3

/-!
Metadata-phase functions of `mdfinfo3.rs`: the record-layout fields
computed by `parse_cn3_block`, the channel-extension parser `parse_ce`,
and the unique-name resolution of `build_channel_db3`.
-/

/-- The `pos_byte_beg` computation of `parse_cn3_block`:
`block2.cn_bit_offset / 8 + record_id_size` on `u16` values (the `%`
models the `u16` width; a release build wraps there, a debug build
would panic, and for conformant v3 files the sum never reaches the
width). -/
def cn3_pos_byte_beg (cn_bit_offset record_id_size : Nat) : Nat :=
  (cn_bit_offset / 8 + record_id_size) % 65536

/-- The `n_bytes` computation of `parse_cn3_block`:
`cn_bit_count / 8`, incremented when `cn_bit_count % 8 != 0`. -/
def cn3_n_bytes (cn_bit_count : Nat) : Nat :=
  (cn_bit_count / 8 + if cn_bit_count % 8 ≠ 0 then 1 else 0) % 65536

/-- DIM (ECU) supplement of a v3 channel-extension block; strings are
Latin-1 byte lists. -/
structure DimBlock where
  ce_module_number : Nat
  ce_address : Nat
  ce_desc : List Nat
  ce_ecu_id : List Nat
deriving DecidableEq, Repr

/-- Vector CAN supplement of a v3 channel-extension block. -/
structure CANBlock where
  ce_can_id : Nat
  ce_can_index : Nat
  ce_message_name : List Nat
  ce_sender_name : List Nat
deriving DecidableEq, Repr

/-- The `CeSupplement` union (`DIM`, `CAN` or `None`; the source's
`None` variant is spelled `noneS` here). -/
inductive CeSupplement where
  | DIM (d : DimBlock)
  | CAN (c : CANBlock)
  | noneS
deriving DecidableEq, Repr

/-- A parsed CE block as stored in `SharableBlocks3`. -/
structure CeBlock where
  ce_len : Nat
  ce_extension_type : Nat
  ce_extension : CeSupplement
deriving DecidableEq, Repr

/-- Embedding of the supplement part of `parse_ce` (mdfinfo3.rs).
`buf` holds the supplement bytes read from the file.  The source reads
them into `buf` but then decodes the description / ECU identifier /
CAN message and sender names from freshly created zeroed vectors
(`let mut desc = vec![0u8; 80];` ... `decode_to(&desc, ..)` instead of
reading `desc` out of the cursor), so every one of those strings is
decoded from all-zero bytes — the embedding reproduces this exactly. -/
def parse_ce (ce_extension_type : Nat) (buf : List Nat) : CeSupplement :=
  if ce_extension_type = 2 then
    .DIM { ce_module_number := leNat (buf.take 2)
         , ce_address := leNat ((buf.drop 2).take 4)
         , ce_desc := latin1TrimZeros (List.replicate 80 0)
         , ce_ecu_id := latin1TrimZeros (List.replicate 32 0) }
  else if ce_extension_type = 19 then
    .CAN { ce_can_id := leNat (buf.take 4)
         , ce_can_index := leNat ((buf.drop 4).take 4)
         , ce_message_name := latin1TrimZeros (List.replicate 36 0)
         , ce_sender_name := latin1TrimZeros (List.replicate 32 0) }
  else .noneS

/-- One channel as visited by the first pass of `build_channel_db3`:
owning data-group position, record id, channel-group block position,
the channel's own block position (the `cn_position` HashMap key), its
name, its CE-block link and channel type. -/
structure Cn3Visit where
  dg_position : Nat
  record_id : Nat
  cg_block_position : Nat
  cn_position : Nat
  unique_name : String
  cn_ce_source : Nat
  cn_type : Nat
deriving DecidableEq, Repr

/-- The `ChannelId3` tuple `(master, dg_position, (cg_position,
record_id), cn_position)`. -/
def ChannelId3 := String × Nat × (Nat × Nat) × Nat
deriving DecidableEq, Repr

/-- Key-membership test on an association list standing for a
`HashMap`. -/
def assocContains (l : List (String × α)) (k : String) : Bool :=
  (l.find? (fun p => p.1 = k)).isSome

/-- `HashMap::insert`: replace the value when the key is present, add
the binding otherwise. -/
def assocInsert (l : List (String × α)) (k : String) (v : α) :
    List (String × α) :=
  if assocContains l k then
    l.map (fun p => if p.1 = k then (k, v) else p)
  else l ++ [(k, v)]

/-- Association-list lookup standing for `HashMap::get`. -/
def assocFind (l : List (Nat × α)) (k : Nat) : Option α :=
  (l.find? (fun p => p.1 = k)).map Prod.snd

/-- The unique-name computation of `build_channel_db3`'s first pass for
one channel: a colliding name gets the CE-derived suffix (DIM ECU id or
CAN message name) when the CE lookup yields one of those supplements,
and the channel's own block position otherwise; a fresh name is kept
bare. -/
def uniqueNameFor (ce : List (Nat × CeBlock))
    (channel_list : List (String × ChannelId3)) (cn : Cn3Visit) : String :=
  if assocContains channel_list cn.unique_name then
    match assocFind ce cn.cn_ce_source with
    | some ceb =>
      match ceb.ce_extension with
      | .DIM dim => cn.unique_name ++ " " ++ latin1String dim.ce_ecu_id
      | .CAN can => cn.unique_name ++ " " ++ latin1String can.ce_message_name
      | .noneS => cn.unique_name ++ " " ++ toString cn.cn_position
    | none => cn.unique_name ++ " " ++ toString cn.cn_position
  else cn.unique_name

/-- First pass of `build_channel_db3`: visit the channels in HashMap
traversal order (`visits` is that order, an input here because Rust's
`HashMap` fixes no order), rename collisions and insert each channel
into the global channel list. -/
def build_channel_db3 (ce : List (Nat × CeBlock)) (visits : List Cn3Visit) :
    List (String × ChannelId3) :=
  visits.foldl
    (fun acc cn =>
      let name := uniqueNameFor ce acc cn
      assocInsert acc name
        ("", cn.dg_position, (cn.cg_block_position, cn.record_id),
          cn.cn_position))
    []

end Info3

namespace Info4

/-!
Version dispatch of `MdfInfo::new` (mdfinfo.rs) and the v4 comment
parsers of `mdfinfo4.rs`.  XML parsing is performed by the external
`roxmltree` crate; its outcome is an input here: `none` models a
malformed document (`Err`), `some elems` a parsed one (`Ok`) with the
extracted name/text pairs.
-/

/-- The two metadata families of the `MdfInfo` enum. -/
inductive MdfVersionTag where
  | v3
  | v4
deriving DecidableEq, Repr

/-- The sole format-version branch of `MdfInfo::new`: the identification
block's `id_ver` selects the v3 sub-parse below 400 and the v4
sub-parse otherwise. -/
def mdf_info_new_dispatch (id_ver : Nat) : MdfVersionTag :=
  if id_ver < 400 then .v3 else .v4

/-- Embedding of `hd4_comment_parser` (mdfinfo4.rs).  With a non-NIL
`hd_md_comment` link: a `##TX` block stores the plain comment; an MD
block is XML-parsed with `.expect(..)`, so a malformed document panics
— `none` — and aborts the file parse, while a parsed one yields its
named `<e>` elements. -/
def hd4_comment_parse (hd_md_comment : Int) (is_tx : Bool)
    (comment : String) (xml : Option (List (String × String))) :
    Option (List (String × String)) :=
  if hd_md_comment = 0 then some []
  else if is_tx then some [("comment", comment)]
  else
    match xml with
    | some elems => some elems
    | none => none

/-- Embedding of `parse_fh_comment` (mdfinfo4.rs).  With a non-NIL
link: a `##TX` block stores the plain comment; for an MD block the
source matches on the XML result — on `Ok` it fills the map from the
descendant nodes and then immediately resets it to a fresh empty
`HashMap`, on `Err` it prints a warning and resets it likewise — so
both outcomes return an empty comment set and parsing continues. -/
def parse_fh_comment (fh_md_comment : Int) (is_tx : Bool)
    (comment : String) (xml : Option (List (String × String))) :
    Option (List (String × String)) :=
  if fh_md_comment = 0 then some []
  else if is_tx then some [("comment", comment)]
  else
    match xml with
    | some _ => some []
    | none => some []

end Info4

namespace V4

/-!
Record-decoding engine of `mdfreader4.rs`.  Byte buffers are
`List Nat`; each `panic!`-able step returns `Option`.  Float arrays
store bit patterns (`f16` values are kept as their 16-bit patterns —
the `f16 → f32` widening of the source is injective, so array equality
is preserved).  The `par_iter_mut` channel fan-out writes to disjoint
per-channel arrays, so it is modelled as a sequential `mapM`; a panic
in any channel fails the whole call (`none`), as a rayon panic aborts
the enclosing call.  UTF-16 and Windows-1252 string decoding by
`encoding_rs` is modelled by retaining the raw bytes (those decoders
accept any byte input, never panic, and append to the target string). -/

/-- The `ChannelData` tagged union of `mdfreader4.rs` as filled by the
byte decoder: integer arrays as `Nat`/`Int`, float arrays as bit
patterns, complex arrays as pattern pairs, decoded strings as byte
lists, byte arrays flattened. -/
inductive ChannelData where
  | int8 (a : List Int)
  | uint8 (a : List Nat)
  | int16 (a : List Int)
  | uint16 (a : List Nat)
  | float16 (a : List Nat)
  | int24 (a : List Int)
  | uint24 (a : List Nat)
  | int32 (a : List Int)
  | uint32 (a : List Nat)
  | float32 (a : List Nat)
  | int48 (a : List Int)
  | uint48 (a : List Nat)
  | int64 (a : List Int)
  | uint64 (a : List Nat)
  | float64 (a : List Nat)
  | complex16 (a : List (Nat × Nat))
  | complex32 (a : List (Nat × Nat))
  | complex64 (a : List (Nat × Nat))
  | stringSBC (a : List (List Nat))
  | stringUTF8 (a : List (List Nat))
  | stringUTF16 (a : List (List Nat))
  | byteArray (a : List Nat)
deriving DecidableEq, Repr

/-- The fields of the `Cn4` channel struct used by the decoder:
channel type, raw data-type code, byte position of the channel in a
record, its byte width, endianness (`true` = big endian) and the
destination array. -/
structure Cn4 where
  cn_type : Nat
  cn_data_type : Nat
  pos_byte_beg : Nat
  n_bytes : Nat
  endian : Bool
  data : ChannelData
deriving DecidableEq, Repr

/-- The fields of the `Cg4` channel-group struct used by the decoder:
record id, record length (record-id prefix included), cycle count,
flags (bit 0 = VLSD), the VLSD target link and the channels keyed by
record position. -/
structure Cg4 where
  cg_record_id : Nat
  record_length : Nat
  cg_cycle_count : Nat
  cg_flags : Nat
  vlsd : Option (Nat × Nat)
  cn : List (Nat × Cn4)
deriving DecidableEq, Repr

/-- The fields of the `Dg4` data-group struct used by the decoder:
record-id prefix width in bytes and the channel groups keyed by record
id. -/
structure Dg4 where
  dg_rec_id_size : Nat
  cg : List (Nat × Cg4)
deriving DecidableEq, Repr

/-- `HashMap::get` on the channel groups of a data group. -/
def lookupCg (l : List (Nat × Cg4)) (k : Nat) : Option Cg4 :=
  (l.find? (fun p => p.1 = k)).map Prod.snd

/-- In-place update of one channel group (`get_mut` followed by
mutation). -/
def updateCg (l : List (Nat × Cg4)) (k : Nat) (v : Cg4) :
    List (Nat × Cg4) :=
  l.map (fun p => if p.1 = k then (k, v) else p)

/-- `HashMap::get` on the channels of a channel group. -/
def lookupCn (l : List (Nat × Cn4)) (k : Nat) : Option Cn4 :=
  (l.find? (fun p => p.1 = k)).map Prod.snd

/-- In-place update of one channel. -/
def updateCn (l : List (Nat × Cn4)) (k : Nat) (v : Cn4) :
    List (Nat × Cn4) :=
  l.map (fun p => if p.1 = k then (k, v) else p)

/-- Unsigned numeric extraction of `k` bytes of a record at `pos`, big
or little endian per the channel flag (models `from_le_bytes` /
`from_be_bytes` / `read_uXX`). -/
def numAt (endian : Bool) (pos k : Nat) (r : List Nat) : Option Nat := do
  let bs ← sliceB r pos k
  pure (if endian then beNat bs else leNat bs)

/-- Signed numeric extraction, two's complement over `8 * k` bits
(models `iXX::from_*_bytes` and `read_i24` / `read_i48`). -/
def intAt (endian : Bool) (pos k : Nat) (r : List Nat) : Option Int :=
  (numAt endian pos k r).map (toSigned (8 * k))

/-- Complex extraction: real then imaginary part, each `k` bytes wide. -/
def complexAt (endian : Bool) (pos k : Nat) (r : List Nat) :
    Option (Nat × Nat) := do
  let re ← numAt endian pos k r
  let im ← numAt endian (pos + k) k r
  pure (re, im)

/-- UTF-8 string extraction: `str::from_utf8(..).expect(..)` panics —
`none` — when the bytes are not valid UTF-8. -/
def utf8At (pos n : Nat) (r : List Nat) : Option (List Nat) := do
  let v ← sliceB r pos n
  if utf8Valid v then pure v else none

/-- The per-record loop shared by every fixed-width branch of
`read_channels_from_bytes`: for each record `i` (in enumeration order)
decode a value and assign it at index `i + previous_index` of the
destination array. -/
def writeRecordsAux (f : List Nat → Option α) :
    List (List Nat) → Nat → List α → Option (List α)
  | [], _, arr => some arr
  | r :: rs, i, arr => do
    let v ← f r
    let arr2 ← setAtB arr i v
    writeRecordsAux f rs (i + 1) arr2

/-- The per-record loop of the SBC / UTF-16 string branches:
`decode_to_string` appends the decoded record into
`data[i + previous_index]`. -/
def appendRecordsAux (f : List Nat → Option (List Nat)) :
    List (List Nat) → Nat → List (List Nat) → Option (List (List Nat))
  | [], _, arr => some arr
  | r :: rs, i, arr => do
    let v ← f r
    let arr2 ← appendAtB arr i v
    appendRecordsAux f rs (i + 1) arr2

/-- The per-record loop of the `ByteArray` branch: record `i` is copied
into the flat buffer at offset `(i + previous_index) * n_bytes`. -/
def writeBytesAux (n : Nat) (f : List Nat → Option (List Nat)) :
    List (List Nat) → Nat → List Nat → Option (List Nat)
  | [], _, arr => some arr
  | r :: rs, i, arr => do
    let v ← f r
    let arr2 ← copyAtB arr (i * n) v
    writeBytesAux n f rs (i + 1) arr2

/-- The per-channel body of `read_channels_from_bytes`
(mdfreader4.rs): fixed-length channels (`cn_type` 0, 2 or 4) decode one
value per record into `data[i + previous_index]`; maximum-length
channels (`cn_type` 5) hit `todo!()` — `none`; the remaining channel
types are left untouched.  `recs` is `data_chunk.chunks(record_length)`
already applied. -/
def read_one_channel (recs : List (List Nat)) (previous_index : Nat)
    (cn : Cn4) : Option Cn4 :=
  if cn.cn_type = 0 ∨ cn.cn_type = 2 ∨ cn.cn_type = 4 then
    let p := cn.pos_byte_beg
    match cn.data with
    | .int8 a =>
      (writeRecordsAux (intAt false p 1) recs previous_index a).map
        (fun a2 => { cn with data := .int8 a2 })
    | .uint8 a =>
      (writeRecordsAux (numAt false p 1) recs previous_index a).map
        (fun a2 => { cn with data := .uint8 a2 })
    | .int16 a =>
      (writeRecordsAux (intAt cn.endian p 2) recs previous_index a).map
        (fun a2 => { cn with data := .int16 a2 })
    | .uint16 a =>
      (writeRecordsAux (numAt cn.endian p 2) recs previous_index a).map
        (fun a2 => { cn with data := .uint16 a2 })
    | .float16 a =>
      (writeRecordsAux (numAt cn.endian p 2) recs previous_index a).map
        (fun a2 => { cn with data := .float16 a2 })
    | .int24 a =>
      (writeRecordsAux (intAt cn.endian p 3) recs previous_index a).map
        (fun a2 => { cn with data := .int24 a2 })
    | .uint24 a =>
      (writeRecordsAux (numAt cn.endian p 3) recs previous_index a).map
        (fun a2 => { cn with data := .uint24 a2 })
    | .int32 a =>
      (writeRecordsAux (intAt cn.endian p 4) recs previous_index a).map
        (fun a2 => { cn with data := .int32 a2 })
    | .uint32 a =>
      (writeRecordsAux (numAt cn.endian p 4) recs previous_index a).map
        (fun a2 => { cn with data := .uint32 a2 })
    | .float32 a =>
      (writeRecordsAux (numAt cn.endian p 4) recs previous_index a).map
        (fun a2 => { cn with data := .float32 a2 })
    | .int48 a =>
      (writeRecordsAux (intAt cn.endian p 6) recs previous_index a).map
        (fun a2 => { cn with data := .int48 a2 })
    | .uint48 a =>
      (writeRecordsAux (numAt cn.endian p 6) recs previous_index a).map
        (fun a2 => { cn with data := .uint48 a2 })
    | .int64 a =>
      (writeRecordsAux (intAt cn.endian p 8) recs previous_index a).map
        (fun a2 => { cn with data := .int64 a2 })
    | .uint64 a =>
      (writeRecordsAux (numAt cn.endian p 8) recs previous_index a).map
        (fun a2 => { cn with data := .uint64 a2 })
    | .float64 a =>
      (writeRecordsAux (numAt cn.endian p 8) recs previous_index a).map
        (fun a2 => { cn with data := .float64 a2 })
    | .complex16 a =>
      (writeRecordsAux (complexAt cn.endian p 2) recs previous_index a).map
        (fun a2 => { cn with data := .complex16 a2 })
    | .complex32 a =>
      (writeRecordsAux (complexAt cn.endian p 4) recs previous_index a).map
        (fun a2 => { cn with data := .complex32 a2 })
    | .complex64 a =>
      (writeRecordsAux (complexAt cn.endian p 8) recs previous_index a).map
        (fun a2 => { cn with data := .complex64 a2 })
    | .stringSBC a =>
      (appendRecordsAux (fun r => sliceB r p cn.n_bytes) recs
          previous_index a).map
        (fun a2 => { cn with data := .stringSBC a2 })
    | .stringUTF8 a =>
      (writeRecordsAux (utf8At p cn.n_bytes) recs previous_index a).map
        (fun a2 => { cn with data := .stringUTF8 a2 })
    | .stringUTF16 a =>
      (appendRecordsAux (fun r => sliceB r p cn.n_bytes) recs
          previous_index a).map
        (fun a2 => { cn with data := .stringUTF16 a2 })
    | .byteArray a =>
      (writeBytesAux cn.n_bytes (fun r => sliceB r p cn.n_bytes) recs
          previous_index a).map
        (fun a2 => { cn with data := .byteArray a2 })
  else if cn.cn_type = 5 then none
  else some cn

/-- The channel fan-out of `read_channels_from_bytes`: decode every
channel of the group; a panic in any channel (`none`) aborts the whole
call, as a rayon worker panic aborts the enclosing `par_iter_mut`. -/
def mapChannels (f : Nat × Cn4 → Option (Nat × Cn4)) :
    List (Nat × Cn4) → Option (List (Nat × Cn4))
  | [] => some []
  | c :: cs => do
    let c2 ← f c
    let cs2 ← mapChannels f cs
    pure (c2 :: cs2)

/-- Embedding of `read_channels_from_bytes` (mdfreader4.rs): split the
chunk into records (`chunks(record_length)` panics on a zero length)
and decode every channel. -/
def read_channels_from_bytes (data_chunk : List Nat)
    (channels : List (Nat × Cn4)) (record_length previous_index : Nat) :
    Option (List (Nat × Cn4)) :=
  if record_length = 0 then none
  else
    mapChannels (fun rc =>
      (read_one_channel (chunksList data_chunk record_length)
          previous_index rc.2).map
        (fun cn2 => (rc.1, cn2)))
      channels

/-- Embedding of `data_init` (mdfreader4.rs): a zeroed destination
array of `cycle_count` entries whose variant is selected by the raw
data-type code and byte width.  The source's guard is
`cn_type != 3 || cn_type != 6`, reproduced verbatim (it is always
true, so the virtual-channel arm is unreachable). -/
def data_init (cn_type cn_data_type n_bytes cycle_count : Nat) :
    ChannelData :=
  if cn_type ≠ 3 ∨ cn_type ≠ 6 then
    if cn_data_type = 0 ∨ cn_data_type = 1 then
      if n_bytes ≤ 1 then .uint8 (List.replicate cycle_count 0)
      else if n_bytes = 2 then .uint16 (List.replicate cycle_count 0)
      else if n_bytes = 3 then .uint24 (List.replicate cycle_count 0)
      else if n_bytes = 4 then .uint32 (List.replicate cycle_count 0)
      else if n_bytes ≤ 6 then .uint48 (List.replicate cycle_count 0)
      else .uint64 (List.replicate cycle_count 0)
    else if cn_data_type = 2 ∨ cn_data_type = 3 then
      if n_bytes ≤ 1 then .int8 (List.replicate cycle_count 0)
      else if n_bytes = 2 then .int16 (List.replicate cycle_count 0)
      else if n_bytes = 3 then .int24 (List.replicate cycle_count 0)
      else if n_bytes = 4 then .int32 (List.replicate cycle_count 0)
      else if n_bytes ≤ 6 then .int48 (List.replicate cycle_count 0)
      else .int64 (List.replicate cycle_count 0)
    else if cn_data_type = 4 ∨ cn_data_type = 5 then
      if n_bytes ≤ 2 then .float16 (List.replicate cycle_count 0)
      else if n_bytes ≤ 4 then .float32 (List.replicate cycle_count 0)
      else .float64 (List.replicate cycle_count 0)
    else if cn_data_type = 15 ∨ cn_data_type = 16 then
      if n_bytes ≤ 2 then .complex16 (List.replicate cycle_count (0, 0))
      else if n_bytes ≤ 4 then .complex32 (List.replicate cycle_count (0, 0))
      else .complex64 (List.replicate cycle_count (0, 0))
    else if cn_data_type = 6 then .stringSBC (List.replicate cycle_count [])
    else if cn_data_type = 7 then .stringUTF8 (List.replicate cycle_count [])
    else if cn_data_type = 8 ∨ cn_data_type = 9 then
      .stringUTF16 (List.replicate cycle_count [])
    else .byteArray (List.replicate (n_bytes * cycle_count) 0)
  else .uint64 (List.range cycle_count)

/-- Embedding of `initialise_arrays` (mdfreader4.rs): reset every
channel's destination array to a fresh zeroed one of `n_record_chunk`
entries. -/
def initialise_arrays (cns : List (Nat × Cn4)) (n_record_chunk : Nat) :
    List (Nat × Cn4) :=
  cns.map (fun rc =>
    (rc.1,
      { rc.2 with
        data := data_init rc.2.cn_type rc.2.cn_data_type rc.2.n_bytes
          n_record_chunk }))

/-- The tunable chunk byte size of the sorted reader. -/
def CHUNK_SIZE_READING : Nat := 524288

/-- Embedding of `generate_chunks` (mdfreader4.rs): the list of
`(records, bytes)` chunk sizes the sorted reader will read. -/
def generate_chunks (cg : Cg4) : List (Nat × Nat) :=
  let record_length := cg.record_length
  let cg_cycle_count := cg.cg_cycle_count
  let n_chunks := record_length * cg_cycle_count / CHUNK_SIZE_READING + 1
  let chunk_length := record_length * cg_cycle_count / n_chunks
  let n_record_chunk := chunk_length / record_length
  let chunks :=
    List.replicate n_chunks (n_record_chunk, record_length * n_record_chunk)
  let n_record_last := cg_cycle_count - n_record_chunk * n_chunks
  if n_record_last > 0 then
    chunks ++ [(n_record_last, record_length * n_record_last)]
  else chunks

/-- The chunk loop of `read_all_channels_sorted`: read each chunk's
bytes sequentially from the stream (`read_exact` fails — `none` — when
the stream is exhausted), decode it at the running `previous_index`,
then advance the index by the chunk's record count. -/
def read_sorted_chunks (record_length : Nat) :
    List (Nat × Nat) → List Nat → List (Nat × Cn4) → Nat → Nat →
    Option (List (Nat × Cn4))
  | [], _, cns, _, _ => some cns
  | (n_rec, sz) :: rest, stream, cns, pos, prev => do
    let chunk ← sliceB stream pos sz
    let cns2 ← read_channels_from_bytes chunk cns record_length prev
    read_sorted_chunks record_length rest stream cns2 (pos + sz)
      (prev + n_rec)

/-- Embedding of `read_all_channels_sorted` (mdfreader4.rs): the DT
path for a sorted group, reading the group's byte stream chunk by
chunk with a running `previous_index`. -/
def read_all_channels_sorted (stream : List Nat) (cg : Cg4) :
    Option Cg4 :=
  let chunks := generate_chunks cg
  let cns := initialise_arrays cg.cn cg.cg_cycle_count
  (read_sorted_chunks cg.record_length chunks stream cns 0 0).map
    (fun cns2 => { cg with cn := cns2 })

/-- The record loop of `read_all_channels_sorted_from_bytes`: for each
`nrecord` in `0 .. cg_cycle_count`, decode the one-record slice
`data[nrecord * record_length .. (nrecord + 1) * record_length]` with
`previous_index` fixed at `0`, exactly as the source passes it. -/
def read_sorted_records_loop (data : List Nat) (record_length : Nat) :
    Nat → Nat → List (Nat × Cn4) → Option (List (Nat × Cn4))
  | _, 0, cns => some cns
  | nrecord, count + 1, cns => do
    let rec_bytes ← sliceB data (nrecord * record_length) record_length
    let cns2 ← read_channels_from_bytes rec_bytes cns record_length 0
    read_sorted_records_loop data record_length (nrecord + 1) count cns2

/-- Embedding of `read_all_channels_sorted_from_bytes`
(mdfreader4.rs): the path taken for a sorted group whose data arrived
as one complete in-memory block (for instance a decompressed DZ
block). -/
def read_all_channels_sorted_from_bytes (data : List Nat) (cg : Cg4) :
    Option Cg4 :=
  let cns := initialise_arrays cg.cn cg.cg_cycle_count
  (read_sorted_records_loop data cg.record_length 0 cg.cg_cycle_count
      cns).map
    (fun cns2 => { cg with cn := cns2 })

/-- Embedding of `save_vlsd` (mdfreader4.rs): store one
variable-length record into the target channel's array at `nrecord`;
numeric variants are a no-op, `ByteArray` hits `todo!()` (`none`),
invalid UTF-8 panics (`none`). -/
def save_vlsd (data : ChannelData) (record : List Nat) (nrecord : Nat)
    (endian : Bool) : Option ChannelData :=
  match data with
  | .int8 a => some (.int8 a)
  | .uint8 a => some (.uint8 a)
  | .int16 a => some (.int16 a)
  | .uint16 a => some (.uint16 a)
  | .float16 a => some (.float16 a)
  | .int24 a => some (.int24 a)
  | .uint24 a => some (.uint24 a)
  | .int32 a => some (.int32 a)
  | .uint32 a => some (.uint32 a)
  | .float32 a => some (.float32 a)
  | .int48 a => some (.int48 a)
  | .uint48 a => some (.uint48 a)
  | .int64 a => some (.int64 a)
  | .uint64 a => some (.uint64 a)
  | .float64 a => some (.float64 a)
  | .complex16 a => some (.complex16 a)
  | .complex32 a => some (.complex32 a)
  | .complex64 a => some (.complex64 a)
  | .stringSBC a => (appendAtB a nrecord record).map .stringSBC
  | .stringUTF8 a =>
    if utf8Valid record then (setAtB a nrecord record).map .stringUTF8
    else none
  | .stringUTF16 a =>
    let _ := endian
    (appendAtB a nrecord record).map .stringUTF16
  | .byteArray _ => none

/-- The per-group demux state: for each record id, the count of VLSD
records saved so far and the reassembled fixed-stride byte buffer
(`record_counter` in the source). -/
def Counter := List (Nat × Nat × List Nat)
deriving DecidableEq, Repr

/-- `HashMap::get_mut` on the record counter. -/
def lookupCounter (c : Counter) (k : Nat) : Option (Nat × List Nat) :=
  (c.find? (fun p => p.1 = k)).map Prod.snd

/-- In-place update of one record-counter entry. -/
def updateCounter (c : Counter) (k : Nat) (v : Nat × List Nat) : Counter :=
  c.map (fun p => if p.1 = k then (k, v) else p)

/-- The record-id read at the top of the demux loop of
`read_all_channels_unsorted_from_bytes`: a prefix of 1, 2, 4 or 8
little-endian bytes, provided enough bytes remain; otherwise the loop
breaks (`none` here). -/
def readRecId (s : Nat) (data : List Nat) (position remaining : Nat) :
    Option Nat :=
  if s = 1 ∧ 1 ≤ remaining then some (data.getD position 0)
  else if s = 2 ∧ 2 ≤ remaining then some (leNat ((data.drop position).take 2))
  else if s = 4 ∧ 4 ≤ remaining then some (leNat ((data.drop position).take 4))
  else if s = 8 ∧ 8 ≤ remaining then some (leNat ((data.drop position).take 8))
  else none

/-- The `while remaining > 0` demux loop of
`read_all_channels_unsorted_from_bytes` (mdfreader4.rs).  The source
loop has no termination guard of its own — when a record id matches no
channel group the iteration makes no progress — so the embedding takes
explicit fuel: `none` means the loop either panicked or did not finish
within `fuel` iterations, `some (dg, counter, position)` a normal exit. -/
def demux_loop (data : List Nat) :
    Nat → Dg4 → Nat → Counter → Option (Dg4 × Counter × Nat)
  | 0, _, _, _ => none
  | fuel + 1, dg, position, counter =>
    let remaining := data.length - position
    if remaining = 0 then some (dg, counter, position)
    else
      match readRecId dg.dg_rec_id_size data position remaining with
      | none => some (dg, counter, position)
      | some rec_id =>
        match lookupCg dg.cg rec_id with
        | none => demux_loop data fuel dg position counter
        | some cg =>
          if cg.record_length ≤ remaining then
            if cg.cg_flags % 2 ≠ 0 then
              let pos1 := position + dg.dg_rec_id_size
              match sliceB data pos1 4 with
              | none => none
              | some lenB =>
                let len := leNat lenB
                let pos2 := pos1 + 4
                match sliceB data pos2 len with
                | none => none
                | some record =>
                  match cg.vlsd with
                  | none => demux_loop data fuel dg (pos2 + len) counter
                  | some (tid, tpos) =>
                    match lookupCg dg.cg tid with
                    | none => demux_loop data fuel dg (pos2 + len) counter
                    | some tcg =>
                      match lookupCn tcg.cn tpos with
                      | none => demux_loop data fuel dg (pos2 + len) counter
                      | some tcn =>
                        match lookupCounter counter rec_id with
                        | none => demux_loop data fuel dg (pos2 + len) counter
                        | some (nrecord, buf) =>
                          match save_vlsd tcn.data record nrecord
                              tcn.endian with
                          | none => none
                          | some newData =>
                            demux_loop data fuel
                              { dg with
                                cg := updateCg dg.cg tid
                                  { tcg with
                                    cn := updateCn tcg.cn tpos
                                      { tcn with data := newData } } }
                              (pos2 + len)
                              (updateCounter counter rec_id
                                (nrecord + 1, buf))
            else
              match sliceB data position cg.record_length with
              | none => none
              | some record =>
                let counter2 :=
                  match lookupCounter counter rec_id with
                  | some (n, buf) =>
                    updateCounter counter rec_id (n, buf ++ record)
                  | none => counter
                demux_loop data fuel dg (position + cg.record_length) counter2
          else some (dg, counter, position)

/-- The copy phase at the end of
`read_all_channels_unsorted_from_bytes`: for every record-counter
entry whose id names a channel group, decode its reassembled buffer
into the group's channel arrays starting at the stored index, then
clear the buffer. -/
def unsorted_copy_phase : Counter → Dg4 → Option (Dg4 × Counter)
  | [], dg => some (dg, [])
  | (rec_id, idx, buf) :: rest, dg =>
    match lookupCg dg.cg rec_id with
    | some cg => do
      let cns ← read_channels_from_bytes buf cg.cn cg.record_length idx
      let (dg3, rest2) ← unsorted_copy_phase rest
        { dg with cg := updateCg dg.cg rec_id { cg with cn := cns } }
      pure (dg3, (rec_id, idx, []) :: rest2)
    | none => do
      let (dg2, rest2) ← unsorted_copy_phase rest dg
      pure (dg2, (rec_id, idx, buf) :: rest2)

/-- Embedding of `read_all_channels_unsorted_from_bytes`
(mdfreader4.rs): demultiplex the buffer record by record, keep the
unconsumed trailing bytes as the new buffer, then run the copy phase.
Returns (new buffer, updated data group, updated counter). -/
def read_all_channels_unsorted_from_bytes (data : List Nat) (dg : Dg4)
    (counter : Counter) (fuel : Nat) :
    Option (List Nat × Dg4 × Counter) := do
  let (dg2, counter2, position) ← demux_loop data fuel dg 0 counter
  let (dg3, counter3) ← unsorted_copy_phase counter2 dg2
  pure (data.drop position, dg3, counter3)

/-- Full bytes of one interleaved record: the little-endian record-id
prefix followed by the payload (a statement-side helper describing
well-formed unsorted streams). -/
def recordBytes (s : Nat) (r : Nat × List Nat) : List Nat :=
  leBytes s r.1 ++ r.2

/-- Byte stream of a list of interleaved records. -/
def recordsBytes (s : Nat) (records : List (Nat × List Nat)) : List Nat :=
  (records.map (recordBytes s)).flatten

/-- Concatenation of the full records carried by record id `g`, in
stream order: the expected demultiplexed buffer of that channel
group. -/
def groupBytes (s g : Nat) (records : List (Nat × List Nat)) : List Nat :=
  recordsBytes s (records.filter (fun r => r.1 = g))

/-- Well-formedness of one interleaved record for a data group: its id
names a non-VLSD channel group whose record length (id prefix
included) is exactly the record's byte count, and the id fits the
prefix width. -/
def recordOk (dg : Dg4) (r : Nat × List Nat) : Bool :=
  match lookupCg dg.cg r.1 with
  | some cg =>
    decide (r.1 < 256 ^ dg.dg_rec_id_size) &&
    decide (cg.cg_flags % 2 = 0) &&
    decide (cg.record_length = dg.dg_rec_id_size + r.2.length)
  | none => false

/-- Condition under which the demux loop breaks on the trailing bytes
instead of consuming or spinning on them: either too short for a
record id, or their id names a channel group whose record does not fit
in them. -/
def tailBreaks (dg : Dg4) (tail : List Nat) : Bool :=
  decide (tail.length < dg.dg_rec_id_size) ||
  (match lookupCg dg.cg (leNat (tail.take dg.dg_rec_id_size)) with
   | some cg => decide (tail.length < cg.record_length)
   | none => false)

end V4

/-!
## Theorems

Helper lemmas first, then one theorem per claim (with witnesses and
counterexamples where required).
-/

/-- C5: for every parsed v3 channel, `parse_cn3_block` plans
`byte_offset = bit_offset / 8 + record_id_prefix_size` (integer
division) and `byte_length = ceil(bit_count / 8)`, i.e. the stored
`n_bytes` is the bit count divided by 8 and rounded up. -/
theorem cn3_layout_formulas (bo bc rs : Nat) (h1 : bc < 65536)
    (h2 : bo / 8 + rs < 65536) :
    Info3.cn3_pos_byte_beg bo rs = bo / 8 + rs ∧
    Info3.cn3_n_bytes bc = (bc + 7) / 8 := by
  constructor
  · simpa [Info3.cn3_pos_byte_beg] using Nat.mod_eq_of_lt h2
  · unfold Info3.cn3_n_bytes
    by_cases h : bc % 8 = 0 <;> simp [h] <;> omega

/-- Witness for `cn3_layout_formulas` at `bit_offset = 19`,
`bit_count = 19`, `record_id_size = 1`. -/
theorem cn3_layout_formulas_witness :
    ((19 : Nat) < 65536 ∧ 19 / 8 + 1 < 65536) ∧
    (Info3.cn3_pos_byte_beg 19 1 = 19 / 8 + 1 ∧
      Info3.cn3_n_bytes 19 = (19 + 7) / 8) :=
  ⟨by decide, cn3_layout_formulas 19 19 1 (by decide) (by decide)⟩

/-- C2 (counter-evidence evaluation): the `Float64` branch of
`rational_conversion` applied to the raw value `0` with coefficients
`(p1 .. p6) = (0, 0, 1, 0, 0, 1)` yields `0`, while the claimed
formula `(m² p1 + m p2 + p3) / (m² p4 + m p5 + p6)` yields `1` — the
branch uses `p1` where every other numeric branch uses `p3`. -/
theorem rational_float64_p3_slip_eval :
    Conv.rational_conversion (Conv.ChannelData.float64 [0])
        [0, 0, 1, 0, 0, 1] 1
      = some (Conv.ChannelData.float64 [0]) ∧
    Conv.ratApply 0 0 1 0 0 1 0 = 1 ∧
    Conv.rational_conversion (Conv.ChannelData.uint8 [0])
        [0, 0, 1, 0, 0, 1] 1
      = some (Conv.ChannelData.float64 [1]) := by
  refine ⟨?_, ?_, ?_⟩
  · simp [Conv.rational_conversion, Conv.ratMap, Conv.ratApplyFloat64]
  · simp [Conv.ratApply]
  · simp [Conv.rational_conversion, Conv.ratMap, Conv.ratApply]

/-- C3 (counter-evidence evaluation): `linear_conversion` with
`p1 = 0, p2 = 1/2` leaves the raw array `[2]` untouched — the skip
guard `p1 == 0.0 && (p2 - 1.0) < 1e-12` is one-sided, so any `p2`
below `1 + 1e-12` is treated as the identity when `p1 = 0` — while the
claimed conversion `raw * p2 + p1` maps `2` to `1`. -/
theorem linear_skip_guard_eval :
    Conv.linear_conversion (Conv.ChannelData.float64 [2]) [0, 1/2] 1
      = some (Conv.ChannelData.float64 [2]) ∧
    Conv.linApply 0 (1/2) 2 = 1 := by
  constructor
  · norm_num [Conv.linear_conversion]
  · norm_num [Conv.linApply]

/-- C6 (counterexample): a malformed-XML MD comment on the header block
makes `hd4_comment_parser` panic (`.expect`), aborting the file parse —
it does not degrade to an empty comment set. -/
theorem hd4_malformed_xml_aborts :
    Info4.hd4_comment_parse 100 false "not xml" none = none := by
  rfl

/-- C6 (amended): malformed XML in a file-history comment degrades to
an empty comment set (with a logged warning) and parsing continues,
but malformed XML in the header comment panics and aborts the file
parse. -/
theorem fh_degrades_hd_aborts (link : Int) (comment : String)
    (h : link ≠ 0) :
    Info4.parse_fh_comment link false comment none = some [] ∧
    Info4.hd4_comment_parse link false comment none = none := by
  simp [Info4.parse_fh_comment, Info4.hd4_comment_parse, h]

/-- Witness for `fh_degrades_hd_aborts` at link `100`. -/
theorem fh_degrades_hd_aborts_witness :
    ((100 : Int) ≠ 0) ∧
    (Info4.parse_fh_comment 100 false "x" none = some [] ∧
      Info4.hd4_comment_parse 100 false "x" none = none) :=
  ⟨by decide, fh_degrades_hd_aborts 100 "x" (by decide)⟩

/-- C8 (counter-evidence evaluation): two channels named `"Speed"`, the
second carrying a DIM channel-extension whose raw ECU-identifier bytes
spell `"ECU1"`, resolve to `"Speed"` and `"Speed "` — the suffix is
empty because `parse_ce` decodes the ECU identifier from a freshly
zeroed buffer instead of the bytes read from the file — not to
`"Speed"` and `"Speed ECU1"`. -/
theorem ce_suffix_always_empty_eval :
    (Info3.build_channel_db3
        [(50, { ce_len := 128, ce_extension_type := 2,
                ce_extension := Info3.parse_ce 2
                  (leBytes 2 1 ++ leBytes 4 0 ++ List.replicate 80 0 ++
                    [69, 67, 85, 49] ++ List.replicate 28 0) })]
        [{ dg_position := 1, record_id := 0, cg_block_position := 10,
           cn_position := 100, unique_name := "Speed", cn_ce_source := 0,
           cn_type := 0 },
         { dg_position := 2, record_id := 0, cg_block_position := 20,
           cn_position := 200, unique_name := "Speed", cn_ce_source := 50,
           cn_type := 0 }]).map Prod.fst
      = ["Speed", "Speed "] ∧
    latin1String (latin1TrimZeros [69, 67, 85, 49]) = "ECU1" := by
  constructor
  · rfl
  · rfl

/-- C9 (counterexample): the bare-versus-suffixed unique-name
assignment of `build_channel_db3` depends on the traversal order of
the `dg`/`cg`/`cn` HashMaps — which Rust's randomly seeded `HashMap`
does not fix from one run to the next — so two parses of the same file
that happen to visit the two colliding `"Speed"` channels in opposite
orders produce different channel databases. -/
theorem build_channel_db3_order_sensitive :
    Info3.build_channel_db3 []
        [{ dg_position := 1, record_id := 0, cg_block_position := 10,
           cn_position := 100, unique_name := "Speed", cn_ce_source := 0,
           cn_type := 0 },
         { dg_position := 2, record_id := 0, cg_block_position := 20,
           cn_position := 200, unique_name := "Speed", cn_ce_source := 0,
           cn_type := 0 }]
      ≠ Info3.build_channel_db3 []
        [{ dg_position := 2, record_id := 0, cg_block_position := 20,
           cn_position := 200, unique_name := "Speed", cn_ce_source := 0,
           cn_type := 0 },
         { dg_position := 1, record_id := 0, cg_block_position := 10,
           cn_position := 100, unique_name := "Speed", cn_ce_source := 0,
           cn_type := 0 }] := by
  decide

/-- C9 (amended): the identification block's version number
deterministically selects the sub-parser — v3 exactly when it is below
400, v4 otherwise — but the metadata graph is reproducible only up to
the unique-name assignment, which follows the HashMap traversal order
rather than the file. -/
theorem version_dispatch_deterministic (id_ver : Nat) :
    (Info4.mdf_info_new_dispatch id_ver = Info4.MdfVersionTag.v3 ↔
      id_ver < 400) ∧
    (Info4.mdf_info_new_dispatch id_ver = Info4.MdfVersionTag.v4 ↔
      400 ≤ id_ver) := by
  by_cases h : id_ver < 400
  · simp [Info4.mdf_info_new_dispatch, h, Nat.not_lt]
  · simp [Info4.mdf_info_new_dispatch, h, Nat.not_lt]
    omega

/-- C1 (counter-evidence evaluation): for a sorted channel group with
one `UInt8` channel, `record_length = 1` and `cg_cycle_count = 2`, the
chunked DT path decodes the byte stream `[5, 7]` to the array
`[5, 7]`, but `read_all_channels_sorted_from_bytes` — the path taken
for a complete in-memory (e.g. decompressed DZ) block — decodes the
same two records to `[7, 0]`: it passes `previous_index = 0` for every
record, so each record is written at row `0` instead of its own row. -/
theorem dz_sorted_previous_index_eval :
    (V4.read_all_channels_sorted [5, 7]
        { cg_record_id := 0, record_length := 1, cg_cycle_count := 2,
          cg_flags := 0, vlsd := none,
          cn := [(0, { cn_type := 0, cn_data_type := 0, pos_byte_beg := 0,
                       n_bytes := 1, endian := false,
                       data := V4.ChannelData.uint8 [] })] }).map
        (fun c => c.cn.map (fun p => p.2.data))
      = some [V4.ChannelData.uint8 [5, 7]] ∧
    (V4.read_all_channels_sorted_from_bytes [5, 7]
        { cg_record_id := 0, record_length := 1, cg_cycle_count := 2,
          cg_flags := 0, vlsd := none,
          cn := [(0, { cn_type := 0, cn_data_type := 0, pos_byte_beg := 0,
                       n_bytes := 1, endian := false,
                       data := V4.ChannelData.uint8 [] })] }).map
        (fun c => c.cn.map (fun p => p.2.data))
      = some [V4.ChannelData.uint8 [7, 0]] := by
  constructor
  · decide
  · decide

/-- C7 (counterexample): a channel group with a `UInt8` channel and a
sibling UTF-8 string channel whose record bytes are the invalid UTF-8
byte `0xFF` — `read_channels_from_bytes` panics
(`str::from_utf8(..).expect(..)`) and the whole group decode aborts:
the sibling `UInt8` channel is not populated either, contradicting the
claimed per-channel isolation. -/
theorem utf8_error_aborts_group_eval :
    V4.read_channels_from_bytes [1, 255]
      [(0, { cn_type := 0, cn_data_type := 0, pos_byte_beg := 0,
             n_bytes := 1, endian := false,
             data := V4.ChannelData.uint8 [0] }),
       (1, { cn_type := 0, cn_data_type := 7, pos_byte_beg := 1,
             n_bytes := 1, endian := false,
             data := V4.ChannelData.stringUTF8 [[]] })]
      2 0 = none := by
  decide

/-- C10 (non-termination evidence): on the one-byte buffer `[9]` whose
record id `9` matches no channel group of the data group (prefix width
1, known record ids `{1}`), the demux loop of
`read_all_channels_unsorted_from_bytes` never advances `position` and
never exits — for every fuel bound the loop is still running. -/
theorem demux_unknown_id_never_finishes : ∀ fuel : Nat,
    V4.demux_loop [9] fuel
      { dg_rec_id_size := 1,
        cg := [(1, { cg_record_id := 1, record_length := 3,
                     cg_cycle_count := 0, cg_flags := 0, vlsd := none,
                     cn := [] })] }
      0 [(1, 0, [])] = none := by
  intro fuel
  induction fuel with
  | zero => rfl
  | succ n ih =>
    simpa [V4.demux_loop, V4.readRecId, V4.lookupCg] using ih

/-- A panic in any channel of the fan-out aborts the whole call. -/
theorem mapChannels_eq_none (f : Nat × V4.Cn4 → Option (Nat × V4.Cn4))
    (l : List (Nat × V4.Cn4)) (c : Nat × V4.Cn4) (hc : c ∈ l)
    (hfc : f c = none) : V4.mapChannels f l = none := by
  induction l with
  | nil => cases hc
  | cons a l ih =>
    rcases List.mem_cons.mp hc with rfl | hc
    · simp [V4.mapChannels, hfc]
    · cases hfa : f a <;> simp [V4.mapChannels, hfa, ih hc]

/-- A zero chunk size never yields a record list (both `chunks(0)` in
Rust and this model reject it before any record is produced). -/
theorem chunksList_zero (data : List Nat) : chunksList data 0 = [] := by
  cases data <;> simp [chunksList, chunksListGo]

/-- C7 (amended): a record whose UTF-8 string slice holds invalid
bytes makes `read_channels_from_bytes` panic and abort the whole
channel-group decode — no channel of the group, the siblings included,
is populated by the call — instead of the error being isolated to the
failing channel. -/
theorem utf8_error_aborts_group (data : List Nat)
    (channels : List (Nat × V4.Cn4)) (rl prev k : Nat) (cn : V4.Cn4)
    (arr : List (List Nat)) (r : List Nat) (rs : List (List Nat))
    (v : List Nat)
    (hmem : (k, cn) ∈ channels) (htype : cn.cn_type = 0)
    (hdata : cn.data = V4.ChannelData.stringUTF8 arr)
    (hrecs : chunksList data rl = r :: rs)
    (hslice : sliceB r cn.pos_byte_beg cn.n_bytes = some v)
    (hbad : utf8Valid v = false) :
    V4.read_channels_from_bytes data channels rl prev = none := by
  have hrl : rl ≠ 0 := by
    intro h
    rw [h, chunksList_zero] at hrecs
    cases hrecs
  unfold V4.read_channels_from_bytes
  rw [if_neg hrl]
  apply mapChannels_eq_none _ _ (k, cn) hmem
  have hone : V4.read_one_channel (chunksList data rl) prev cn = none := by
    rw [hrecs]
    unfold V4.read_one_channel
    rw [if_pos (Or.inl htype)]
    have hf : V4.utf8At cn.pos_byte_beg cn.n_bytes r = none := by
      simp [V4.utf8At, hslice, hbad]
    simp only [hdata]
    simp [V4.writeRecordsAux, hf]
  simp [hone]

/-- Witness for `utf8_error_aborts_group`: the two-channel group of
the counterexample, with the invalid byte `0xFF` in the string
channel. -/
theorem utf8_error_aborts_group_witness :
    ((1, ({ cn_type := 0, cn_data_type := 7, pos_byte_beg := 1,
            n_bytes := 1, endian := false,
            data := V4.ChannelData.stringUTF8 [[]] } : V4.Cn4))
        ∈ [(0, ({ cn_type := 0, cn_data_type := 0, pos_byte_beg := 0,
                  n_bytes := 1, endian := false,
                  data := V4.ChannelData.uint8 [0] } : V4.Cn4)),
           (1, ({ cn_type := 0, cn_data_type := 7, pos_byte_beg := 1,
                  n_bytes := 1, endian := false,
                  data := V4.ChannelData.stringUTF8 [[]] } : V4.Cn4))] ∧
      chunksList [1, 255] 2 = [[1, 255]] ∧
      sliceB [1, 255] 1 1 = some [255] ∧
      utf8Valid [255] = false) ∧
    V4.read_channels_from_bytes [1, 255]
      [(0, { cn_type := 0, cn_data_type := 0, pos_byte_beg := 0,
             n_bytes := 1, endian := false,
             data := V4.ChannelData.uint8 [0] }),
       (1, { cn_type := 0, cn_data_type := 7, pos_byte_beg := 1,
             n_bytes := 1, endian := false,
             data := V4.ChannelData.stringUTF8 [[]] })]
      2 0 = none :=
  ⟨by decide,
    utf8_error_aborts_group [1, 255] _ 2 0 1
      { cn_type := 0, cn_data_type := 7, pos_byte_beg := 1, n_bytes := 1,
        endian := false, data := V4.ChannelData.stringUTF8 [[]] }
      [[]] [1, 255] [] [255]
      (by decide) (by decide) (by decide) (by decide) (by decide)
      (by decide)⟩

/-- Unfolding of the little-endian fold on a cons cell. -/
theorem leNat_cons (b : Nat) (bs : List Nat) :
    leNat (b :: bs) = b + 256 * leNat bs := rfl

/-- A little-endian encoding has exactly `s` bytes. -/
theorem leBytes_length (s v : Nat) : (leBytes s v).length = s := by
  induction s generalizing v with
  | zero => rfl
  | succ n ih => simp [leBytes, ih]

/-- Decoding a little-endian encoding recovers the value when it fits
the width. -/
theorem leNat_leBytes (s v : Nat) (h : v < 256 ^ s) :
    leNat (leBytes s v) = v := by
  induction s generalizing v with
  | zero =>
    interval_cases v
    rfl
  | succ n ih =>
    have hdiv : v / 256 < 256 ^ n := by
      rw [Nat.div_lt_iff_lt_mul (by norm_num : 0 < 256)]
      calc v < 256 ^ (n + 1) := h
      _ = 256 ^ n * 256 := by ring
    rw [leBytes, leNat_cons, ih (v / 256) hdiv]
    omega

/-- Unfolding of the counter lookup on a cons cell. -/
theorem lookupCounter_cons (p : Nat × Nat × List Nat) (c : V4.Counter)
    (g : Nat) :
    V4.lookupCounter (p :: c) g =
      if p.1 = g then some p.2 else V4.lookupCounter c g := by
  by_cases h : p.1 = g <;> simp [V4.lookupCounter, List.find?_cons, h]

/-- Unfolding of the counter update on a cons cell. -/
theorem updateCounter_cons (p : Nat × Nat × List Nat) (c : V4.Counter)
    (k : Nat) (v : Nat × List Nat) :
    V4.updateCounter (p :: c) k v =
      (if p.1 = k then (k, v) else p) :: V4.updateCounter c k v := rfl

/-- Updating an existing counter key makes its lookup return the new
value. -/
theorem lookupCounter_updateCounter_self (c : V4.Counter) (k : Nat)
    (v : Nat × List Nat) (h : (V4.lookupCounter c k).isSome) :
    V4.lookupCounter (V4.updateCounter c k v) k = some v := by
  induction c with
  | nil => simp [V4.lookupCounter] at h
  | cons p c ih =>
    rw [lookupCounter_cons] at h
    by_cases hp : p.1 = k
    · simp [updateCounter_cons, lookupCounter_cons, hp]
    · rw [if_neg hp] at h
      simp [updateCounter_cons, lookupCounter_cons, hp, ih h]

/-- Updating one counter key leaves every other key's lookup
unchanged. -/
theorem lookupCounter_updateCounter_ne (c : V4.Counter) (k g : Nat)
    (v : Nat × List Nat) (hne : g ≠ k) :
    V4.lookupCounter (V4.updateCounter c k v) g = V4.lookupCounter c g := by
  induction c with
  | nil => rfl
  | cons p c ih =>
    by_cases hp : p.1 = k
    · have h1 : ¬ (k = g) := fun h => hne h.symm
      have h2 : ¬ (p.1 = g) := by rw [hp]; exact h1
      simp [updateCounter_cons, lookupCounter_cons, hp, h1, h2, ih]
    · by_cases hg : p.1 = g <;>
        simp [updateCounter_cons, lookupCounter_cons, hp, hg, hne, ih]

/-- Reading the record id at the head of a well-formed record stream
returns the encoded id, for every supported prefix width. -/
theorem readRecId_spec (s : Nat)
    (hs : s = 1 ∨ s = 2 ∨ s = 4 ∨ s = 8)
    (data : List Nat) (pos g : Nat) (rest2 : List Nat)
    (hdrop : data.drop pos = leBytes s g ++ rest2)
    (hg : g < 256 ^ s) :
    V4.readRecId s data pos (data.length - pos) = some g := by
  have hlen : data.length - pos = s + rest2.length := by
    have h := congrArg List.length hdrop
    simpa [leBytes_length] using h
  have hrem : s ≤ data.length - pos := by omega
  have htake : (data.drop pos).take s = leBytes s g := by
    rw [hdrop]
    calc (leBytes s g ++ rest2).take s
        = (leBytes s g ++ rest2).take (leBytes s g).length := by
          rw [leBytes_length]
      _ = leBytes s g := List.take_left _ _
  rcases hs with rfl | rfl | rfl | rfl
  · rw [V4.readRecId, if_pos ⟨rfl, hrem⟩]
    have hget : data[pos]? = some (g % 256) := by
      have h0 : (data.drop pos)[0]? = some (g % 256) := by
        rw [hdrop]
        simp [leBytes]
      rw [List.getElem?_drop] at h0
      simpa using h0
    have hGD : data.getD pos 0 = g % 256 := by
      simp [List.getD_eq_getElem?_getD, hget]
    rw [hGD, Nat.mod_eq_of_lt (by simpa using hg)]
  · rw [V4.readRecId]
    rw [if_neg (by omega), if_pos ⟨rfl, hrem⟩, htake, leNat_leBytes _ _ hg]
  · rw [V4.readRecId]
    rw [if_neg (by omega), if_neg (by omega), if_pos ⟨rfl, hrem⟩, htake,
      leNat_leBytes _ _ hg]
  · rw [V4.readRecId]
    rw [if_neg (by omega), if_neg (by omega), if_neg (by omega),
      if_pos ⟨rfl, hrem⟩, htake, leNat_leBytes _ _ hg]

/-- One iteration of the demux loop on a complete non-VLSD record whose
id names a channel group: the record (id prefix included) is appended
to that group's counter buffer and `position` advances by the group's
record length. -/
theorem demux_loop_step (data : List Nat) (fuel : Nat) (dg : V4.Dg4)
    (pos : Nat) (counter : V4.Counter) (rec_id : Nat) (cg : V4.Cg4)
    (record : List Nat)
    (hrem : data.length - pos ≠ 0)
    (hread : V4.readRecId dg.dg_rec_id_size data pos (data.length - pos)
      = some rec_id)
    (hcg : V4.lookupCg dg.cg rec_id = some cg)
    (hflags : cg.cg_flags % 2 = 0)
    (hlen : cg.record_length ≤ data.length - pos)
    (hslice : sliceB data pos cg.record_length = some record) :
    V4.demux_loop data (fuel + 1) dg pos counter =
      V4.demux_loop data fuel dg (pos + cg.record_length)
        (match V4.lookupCounter counter rec_id with
         | some (n, buf) => V4.updateCounter counter rec_id (n, buf ++ record)
         | none => counter) := by
  rw [V4.demux_loop]
  simp only [hread, hcg, hslice, hflags, if_neg hrem, if_pos hlen]
  simp

/-- When fewer bytes remain than the record-id prefix width, no record
id can be read. -/
theorem readRecId_none_of_short (s : Nat) (data : List Nat)
    (pos remaining : Nat) (h : remaining < s) :
    V4.readRecId s data pos remaining = none := by
  rw [V4.readRecId, if_neg (by rintro ⟨rfl, h2⟩; omega),
    if_neg (by rintro ⟨rfl, h2⟩; omega),
    if_neg (by rintro ⟨rfl, h2⟩; omega),
    if_neg (by rintro ⟨rfl, h2⟩; omega)]

/-- With at least a prefix worth of bytes remaining, the record id read
is the little-endian value of the first `s` bytes at `pos`. -/
theorem readRecId_eq_take (s : Nat)
    (hs : s = 1 ∨ s = 2 ∨ s = 4 ∨ s = 8) (data : List Nat) (pos : Nat)
    (hrem : s ≤ data.length - pos) :
    V4.readRecId s data pos (data.length - pos)
      = some (leNat ((data.drop pos).take s)) := by
  rcases hs with rfl | rfl | rfl | rfl
  · rw [V4.readRecId, if_pos ⟨rfl, hrem⟩]
    have hne : data.drop pos ≠ [] := by
      intro h
      have := congrArg List.length h
      simp at this
      omega
    rcases List.exists_cons_of_ne_nil hne with ⟨b, l, hbl⟩
    have hget : data[pos]? = some b := by
      have h0 : (data.drop pos)[0]? = some b := by rw [hbl]; simp
      rw [List.getElem?_drop] at h0
      simpa using h0
    have hGD : data.getD pos 0 = b := by
      simp [List.getD_eq_getElem?_getD, hget]
    rw [hGD, hbl]
    simp [leNat_cons, leNat]
  · rw [V4.readRecId, if_neg (by omega), if_pos ⟨rfl, hrem⟩]
  · rw [V4.readRecId, if_neg (by omega), if_neg (by omega),
      if_pos ⟨rfl, hrem⟩]
  · rw [V4.readRecId, if_neg (by omega), if_neg (by omega),
      if_neg (by omega), if_pos ⟨rfl, hrem⟩]

/-- The demux loop exits (without consuming anything) when the bytes
remaining at `pos` are a breaking tail: too short for an id, or their
id names a group whose record does not fit. -/
theorem demux_loop_break (data : List Nat) (fuel : Nat) (dg : V4.Dg4)
    (pos : Nat) (counter : V4.Counter) (tail : List Nat)
    (hs : dg.dg_rec_id_size = 1 ∨ dg.dg_rec_id_size = 2 ∨
      dg.dg_rec_id_size = 4 ∨ dg.dg_rec_id_size = 8)
    (hdrop : data.drop pos = tail)
    (htail : V4.tailBreaks dg tail = true) :
    V4.demux_loop data (fuel + 1) dg pos counter
      = some (dg, counter, pos) := by
  have hlen : data.length - pos = tail.length := by
    have h := congrArg List.length hdrop
    simpa using h
  by_cases hzero : tail.length = 0
  · rw [V4.demux_loop, if_pos (by omega)]
  by_cases hshort : tail.length < dg.dg_rec_id_size
  · rw [V4.demux_loop, if_neg (by omega)]
    rw [hlen, readRecId_none_of_short _ _ _ _ hshort]
  · have hmatch :
        (match V4.lookupCg dg.cg (leNat (tail.take dg.dg_rec_id_size)) with
         | some cg => decide (tail.length < cg.record_length)
         | none => false) = true := by
      have h := htail
      rw [V4.tailBreaks, Bool.or_eq_true] at h
      rcases h with h | h
      · exact absurd (of_decide_eq_true h) hshort
      · exact h
    rcases hcg : V4.lookupCg dg.cg (leNat (tail.take dg.dg_rec_id_size))
        with _ | cg
    · rw [hcg] at hmatch
      cases hmatch
    · rw [hcg] at hmatch
      have hrl : tail.length < cg.record_length := of_decide_eq_true hmatch
      rw [V4.demux_loop, if_neg (by omega)]
      have hread := readRecId_eq_take dg.dg_rec_id_size hs data pos
        (by omega)
      rw [hread, hdrop]
      simp only [hcg]
      rw [if_neg (by omega)]

/-- Unfolding of the interleaved stream on a cons cell. -/
theorem recordsBytes_cons (s : Nat) (r : Nat × List Nat)
    (rest : List (Nat × List Nat)) :
    V4.recordsBytes s (r :: rest)
      = V4.recordBytes s r ++ V4.recordsBytes s rest := by
  simp [V4.recordsBytes]

/-- Byte count of one full record. -/
theorem recordBytes_length (s : Nat) (r : Nat × List Nat) :
    (V4.recordBytes s r).length = s + r.2.length := by
  simp [V4.recordBytes, leBytes_length]

/-- Unfolding of a group's expected buffer on a cons cell. -/
theorem groupBytes_cons (s g : Nat) (r : Nat × List Nat)
    (rest : List (Nat × List Nat)) :
    V4.groupBytes s g (r :: rest)
      = if r.1 = g then V4.recordBytes s r ++ V4.groupBytes s g rest
        else V4.groupBytes s g rest := by
  by_cases h : r.1 = g <;>
    simp [V4.groupBytes, List.filter_cons, h, recordsBytes_cons]

/-- The demux loop of `read_all_channels_unsorted_from_bytes`, run on a
well-formed interleaved stream followed by a breaking tail, terminates
within one iteration per record, leaves the group structure untouched,
stops exactly at the tail, and extends every channel group's counter
buffer with precisely the records bearing that group's id, in stream
order. -/
theorem demux_loop_reassembles (dg : V4.Dg4) (tail : List Nat)
    (hs : dg.dg_rec_id_size = 1 ∨ dg.dg_rec_id_size = 2 ∨
      dg.dg_rec_id_size = 4 ∨ dg.dg_rec_id_size = 8)
    (htail : V4.tailBreaks dg tail = true) :
    ∀ (records : List (Nat × List Nat)) (data : List Nat) (pos : Nat)
      (counter : V4.Counter),
      (∀ r ∈ records, V4.recordOk dg r = true) →
      data.drop pos = V4.recordsBytes dg.dg_rec_id_size records ++ tail →
      ∃ counterF position,
        V4.demux_loop data (records.length + 1) dg pos counter
          = some (dg, counterF, position) ∧
        data.drop position = tail ∧
        ∀ g n buf, V4.lookupCounter counter g = some (n, buf) →
          V4.lookupCounter counterF g
            = some (n, buf ++ V4.groupBytes dg.dg_rec_id_size g records) := by
  intro records
  induction records with
  | nil =>
    intro data pos counter _ hdata
    have hdata0 : data.drop pos = tail := by
      simpa [V4.recordsBytes] using hdata
    refine ⟨counter, pos, ?_, hdata0, ?_⟩
    · exact demux_loop_break data 0 dg pos counter tail hs hdata0 htail
    · intro g n buf h
      simpa [V4.groupBytes, V4.recordsBytes] using h
  | cons r rest ih =>
    intro data pos counter hrec hdata
    have hrokr := hrec r (List.mem_cons_self r rest)
    rw [V4.recordOk] at hrokr
    rcases hcgr : V4.lookupCg dg.cg r.1 with _ | cg
    · rw [hcgr] at hrokr
      cases hrokr
    rw [hcgr] at hrokr
    simp only [Bool.and_eq_true, decide_eq_true_eq] at hrokr
    obtain ⟨⟨hid, hflags⟩, hrl⟩ := hrokr
    have hs1 : 1 ≤ dg.dg_rec_id_size := by
      rcases hs with h | h | h | h <;> omega
    have hdata' : data.drop pos
        = V4.recordBytes dg.dg_rec_id_size r ++
          (V4.recordsBytes dg.dg_rec_id_size rest ++ tail) := by
      rw [hdata, recordsBytes_cons, List.append_assoc]
    have hreclen : (V4.recordBytes dg.dg_rec_id_size r).length
        = cg.record_length := by
      rw [recordBytes_length, hrl]
    have hdroplen : data.length - pos
        = cg.record_length +
          (V4.recordsBytes dg.dg_rec_id_size rest ++ tail).length := by
      have h := congrArg List.length hdata'
      rw [List.length_drop, List.length_append, hreclen] at h
      exact h
    have hrem : data.length - pos ≠ 0 := by omega
    have hlen : cg.record_length ≤ data.length - pos := by omega
    have hread : V4.readRecId dg.dg_rec_id_size data pos
        (data.length - pos) = some r.1 := by
      apply readRecId_spec dg.dg_rec_id_size hs data pos r.1
        (r.2 ++ (V4.recordsBytes dg.dg_rec_id_size rest ++ tail))
      · rw [hdata']
        simp [V4.recordBytes, List.append_assoc]
      · exact hid
    have hslice : sliceB data pos cg.record_length
        = some (V4.recordBytes dg.dg_rec_id_size r) := by
      rw [sliceB, if_pos (by omega)]
      congr 1
      rw [hdata']
      calc (V4.recordBytes dg.dg_rec_id_size r ++
              (V4.recordsBytes dg.dg_rec_id_size rest ++ tail)).take
            cg.record_length
          = (V4.recordBytes dg.dg_rec_id_size r ++
              (V4.recordsBytes dg.dg_rec_id_size rest ++ tail)).take
            (V4.recordBytes dg.dg_rec_id_size r).length := by rw [hreclen]
        _ = V4.recordBytes dg.dg_rec_id_size r := List.take_left _ _
    have hdata2 : data.drop (pos + cg.record_length)
        = V4.recordsBytes dg.dg_rec_id_size rest ++ tail := by
      have h1 : data.drop (pos + cg.record_length)
          = (data.drop pos).drop cg.record_length := by
        rw [List.drop_drop, Nat.add_comm]
      rw [h1, hdata']
      calc (V4.recordBytes dg.dg_rec_id_size r ++
              (V4.recordsBytes dg.dg_rec_id_size rest ++ tail)).drop
            cg.record_length
          = (V4.recordBytes dg.dg_rec_id_size r ++
              (V4.recordsBytes dg.dg_rec_id_size rest ++ tail)).drop
            (V4.recordBytes dg.dg_rec_id_size r).length := by rw [hreclen]
        _ = V4.recordsBytes dg.dg_rec_id_size rest ++ tail :=
            List.drop_left _ _
    have hstep := demux_loop_step data (rest.length + 1) dg pos counter
      r.1 cg (V4.recordBytes dg.dg_rec_id_size r) hrem hread hcgr hflags
      hlen hslice
    have hfuel : (r :: rest).length + 1 = rest.length + 1 + 1 := by simp
    rw [hfuel, hstep]
    obtain ⟨counterF, position, heq, hpos, hprop⟩ :=
      ih data (pos + cg.record_length)
        (match V4.lookupCounter counter r.1 with
         | some (n, buf) =>
           V4.updateCounter counter r.1
             (n, buf ++ V4.recordBytes dg.dg_rec_id_size r)
         | none => counter)
        (fun r2 hr2 => hrec r2 (List.mem_cons_of_mem _ hr2)) hdata2
    refine ⟨counterF, position, heq, hpos, ?_⟩
    intro g n buf hg
    by_cases hgr : g = r.1
    · subst hgr
      have hc2 : V4.lookupCounter
          (match V4.lookupCounter counter r.1 with
           | some (n, buf) =>
             V4.updateCounter counter r.1
               (n, buf ++ V4.recordBytes dg.dg_rec_id_size r)
           | none => counter) r.1
          = some (n, buf ++ V4.recordBytes dg.dg_rec_id_size r) := by
        simp only [hg]
        exact lookupCounter_updateCounter_self counter r.1 _ (by simp [hg])
      have hF := hprop r.1 n (buf ++ V4.recordBytes dg.dg_rec_id_size r) hc2
      rw [hF, groupBytes_cons, if_pos rfl, List.append_assoc]
    · have hc2 : V4.lookupCounter
          (match V4.lookupCounter counter r.1 with
           | some (n, buf) =>
             V4.updateCounter counter r.1
               (n, buf ++ V4.recordBytes dg.dg_rec_id_size r)
           | none => counter) g
          = some (n, buf) := by
        rcases hcc : V4.lookupCounter counter r.1 with _ | ⟨n2, buf2⟩
        · simp only [hcc]
          exact hg
        · simp only [hcc]
          rw [lookupCounter_updateCounter_ne _ _ _ _ hgr]
          exact hg
      have hF := hprop g n buf hc2
      rw [hF, groupBytes_cons, if_neg (fun h => hgr h.symm)]

/-- C4: demultiplexing an unsorted (record-id-prefixed) buffer that
interleaves complete records of several non-VLSD channel groups with
distinct record ids reassembles, for each channel group, the
fixed-stride buffer equal to exactly the sub-sequence of records
bearing that group's id in original relative order, and the partial
trailing bytes that do not complete a record are left in the buffer
(the loop stops exactly at them, and
`read_all_channels_unsorted_from_bytes` keeps `data[position..]` to be
prepended to the next read chunk) rather than dropped. -/
theorem unsorted_demux_reassembles (dg : V4.Dg4)
    (records : List (Nat × List Nat)) (tail : List Nat)
    (counter0 : V4.Counter)
    (hs : dg.dg_rec_id_size = 1 ∨ dg.dg_rec_id_size = 2 ∨
      dg.dg_rec_id_size = 4 ∨ dg.dg_rec_id_size = 8)
    (hrec : ∀ r ∈ records, V4.recordOk dg r = true)
    (htail : V4.tailBreaks dg tail = true) :
    ∃ counterF position,
      V4.demux_loop (V4.recordsBytes dg.dg_rec_id_size records ++ tail)
          (records.length + 1) dg 0 counter0
        = some (dg, counterF, position) ∧
      (V4.recordsBytes dg.dg_rec_id_size records ++ tail).drop position
        = tail ∧
      ∀ g n buf, V4.lookupCounter counter0 g = some (n, buf) →
        V4.lookupCounter counterF g
          = some (n, buf ++ V4.groupBytes dg.dg_rec_id_size g records) :=
  demux_loop_reassembles dg tail hs htail records _ 0 counter0 hrec
    (by simp)

/-- Witness for `unsorted_demux_reassembles`: two channel groups
(record id 1, stride 3; record id 2, stride 2), three interleaved
records and the partial trailing byte `[2]`. -/
theorem unsorted_demux_reassembles_witness :
    (((1 : Nat) = 1 ∨ (1 : Nat) = 2 ∨ (1 : Nat) = 4 ∨ (1 : Nat) = 8) ∧
      (∀ r ∈ [((1 : Nat), [(10 : Nat), 11]), (2, [20]), (1, [12, 13])],
        V4.recordOk
          { dg_rec_id_size := 1,
            cg := [(1, { cg_record_id := 1, record_length := 3,
                         cg_cycle_count := 2, cg_flags := 0, vlsd := none,
                         cn := [] }),
                   (2, { cg_record_id := 2, record_length := 2,
                         cg_cycle_count := 1, cg_flags := 0, vlsd := none,
                         cn := [] })] }
          r = true) ∧
      V4.tailBreaks
        { dg_rec_id_size := 1,
          cg := [(1, { cg_record_id := 1, record_length := 3,
                       cg_cycle_count := 2, cg_flags := 0, vlsd := none,
                       cn := [] }),
                 (2, { cg_record_id := 2, record_length := 2,
                       cg_cycle_count := 1, cg_flags := 0, vlsd := none,
                       cn := [] })] }
        [2] = true) ∧
    (∃ counterF position,
      V4.demux_loop
          (V4.recordsBytes 1 [(1, [10, 11]), (2, [20]), (1, [12, 13])]
            ++ [2])
          ([((1 : Nat), [(10 : Nat), 11]), (2, [20]), (1, [12, 13])].length
            + 1)
          { dg_rec_id_size := 1,
            cg := [(1, { cg_record_id := 1, record_length := 3,
                         cg_cycle_count := 2, cg_flags := 0, vlsd := none,
                         cn := [] }),
                   (2, { cg_record_id := 2, record_length := 2,
                         cg_cycle_count := 1, cg_flags := 0, vlsd := none,
                         cn := [] })] }
          0 [(1, 0, []), (2, 0, [])]
        = some
          ({ dg_rec_id_size := 1,
             cg := [(1, { cg_record_id := 1, record_length := 3,
                          cg_cycle_count := 2, cg_flags := 0, vlsd := none,
                          cn := [] }),
                    (2, { cg_record_id := 2, record_length := 2,
                          cg_cycle_count := 1, cg_flags := 0, vlsd := none,
                          cn := [] })] },
            counterF, position) ∧
      (V4.recordsBytes 1 [(1, [10, 11]), (2, [20]), (1, [12, 13])]
          ++ [2]).drop position = [2] ∧
      ∀ g n buf,
        V4.lookupCounter [(1, 0, []), (2, 0, [])] g = some (n, buf) →
          V4.lookupCounter counterF g
            = some (n, buf ++
                V4.groupBytes 1 g [(1, [10, 11]), (2, [20]), (1, [12, 13])])) :=
  ⟨⟨by decide, by decide, by decide⟩,
    unsorted_demux_reassembles
      { dg_rec_id_size := 1,
        cg := [(1, { cg_record_id := 1, record_length := 3,
                     cg_cycle_count := 2, cg_flags := 0, vlsd := none,
                     cn := [] }),
               (2, { cg_record_id := 2, record_length := 2,
                     cg_cycle_count := 1, cg_flags := 0, vlsd := none,
                     cn := [] })] }
      [(1, [10, 11]), (2, [20]), (1, [12, 13])] [2]
      [(1, 0, []), (2, 0, [])]
      (by decide) (by decide) (by decide)⟩
